import Mathlib

/-!
# Verification of the Synapse Trader order/position lifecycle

Shallow embedding of the risk-managed order lifecycle of the
`synapse_trader` repository: the Risk Manager (`bots/risk_manager.py`),
the Executor (`bots/executor.py`), the Monitor (`bots/monitor.py`) and the
symbol-rule provider (`utils/symbol_filters.py`).

Modelling conventions:
* Python floats / `Decimal` values are modelled as exact rationals (`ℚ`).
  The money-math path of the source performs its arithmetic through
  `Decimal` built from short decimal strings, so the rational model is the
  exact arithmetic the code computes with.
* A pandas column that may contain NaN is modelled as `List (Option ℚ)`
  with `none` standing for NaN.
* Fallible external effects (state-store writes, exchange calls, event-bus
  publishes) are driven by explicit boolean/enumerated oracles; a handler
  returns its new state together with the list of external actions it
  performed, in execution order.
* The state store collections (`pending_orders`, `positions`) are
  association lists keyed by strings; JSON (de)serialization of pydantic
  models is modelled as the identity on the structures.
-/

namespace SynapseTrader

/-! ## Core data types (`core/types.py`) -/

inductive OrderSide where
  | BUY
  | SELL
deriving DecidableEq, Repr

def OrderSide.value : OrderSide → String
  | .BUY => "BUY"
  | .SELL => "SELL"

inductive OrderType where
  | MARKET
  | LIMIT
deriving DecidableEq, Repr

def OrderType.value : OrderType → String
  | .MARKET => "MARKET"
  | .LIMIT => "LIMIT"

structure TradeSignal where
  symbol : String
  side : OrderSide
  strategy : String
deriving DecidableEq, Repr

structure OrderRequest where
  symbol : String
  side : OrderSide
  order_type : OrderType
  quantity : ℚ
  client_order_id : String
  price : Option ℚ := none
  sl_price : Option ℚ := none
  tp_price : Option ℚ := none
  timeout_seconds : Option ℤ := none
  strategy : Option String := none
deriving DecidableEq, Repr

/-- `Position` (`core/types.py`); `entry_timestamp` is kept as the fill
time in milliseconds. -/
structure Position where
  symbol : String
  strategy : String
  side : OrderSide
  quantity : ℚ
  entry_price : ℚ
  entry_timestamp : ℤ
  sl_price : ℚ
  tp_price : Option ℚ
  tsl_active_at_price : Option ℚ := none
  tsl_trail_percent : Option ℚ := none
  tsl_current_stop : Option ℚ := none
  tsl_highest_price : ℚ := 0
deriving DecidableEq, Repr

/-- The dictionary written to the durable trade log by
`monitor._process_order_fill` (exit branch). -/
structure TradeLog where
  symbol : String
  strategy : String
  side : String
  quantity : ℚ
  entry_price : ℚ
  exit_price : ℚ
  pnl : ℚ
  pnl_percent : ℚ
  timestamp_entry : ℤ
  timestamp_exit : ℤ
deriving DecidableEq, Repr

/-! ## Association-list state collections -/

/-- Lookup in a string-keyed collection (Redis hash `hget`). -/
def lookupK {α : Type} : List (String × α) → String → Option α
  | [], _ => none
  | (k, v) :: rest, key => if key = k then some v else lookupK rest key

/-- Delete a key from a collection (Redis hash `hdel`). -/
def eraseK {α : Type} : List (String × α) → String → List (String × α)
  | [], _ => []
  | (k, v) :: rest, key =>
      if key = k then eraseK rest key else (k, v) :: eraseK rest key

/-- Set a key in a collection (Redis hash `hset`: same-key overwrite). -/
def insertK {α : Type} (l : List (String × α)) (key : String) (v : α) :
    List (String × α) :=
  (key, v) :: eraseK l key

/-! ## Symbol filters (`utils/symbol_filters.py`)

`_get_filter` returns `None` when the symbol is unknown or the filter type
is absent; the two-step dictionary access is collapsed into optional
fields of the per-symbol rule record. -/

structure SymbolRules where
  stepSize : Option ℚ := none
  tickSize : Option ℚ := none
  minNotional : Option ℚ := none
deriving DecidableEq, Repr

/-- The loaded `SymbolFilters` singleton table. -/
structure SymbolFilters where
  table : List (String × SymbolRules)
deriving DecidableEq, Repr

def SymbolFilters.stepOf (f : SymbolFilters) (symbol : String) : Option ℚ :=
  (lookupK f.table symbol).bind (fun r => r.stepSize)

def SymbolFilters.tickOf (f : SymbolFilters) (symbol : String) : Option ℚ :=
  (lookupK f.table symbol).bind (fun r => r.tickSize)

def SymbolFilters.minNotionalOf (f : SymbolFilters) (symbol : String) :
    Option ℚ :=
  (lookupK f.table symbol).bind (fun r => r.minNotional)

/-- `Decimal.to_integral_value(rounding=ROUND_DOWN)`: round toward zero. -/
def roundDownInt (y : ℚ) : ℤ :=
  if 0 ≤ y then ⌊y⌋ else ⌈y⌉

/-- `Decimal.to_integral_value(rounding=ROUND_HALF_UP)`: round to the
nearest integer, ties away from zero. -/
def roundHalfUpInt (y : ℚ) : ℤ :=
  if 0 ≤ y then ⌊y + 1/2⌋ else -⌊-y + 1/2⌋

/-- `SymbolFilters.adjust_quantity_to_step`: round the quantity down to
the lot-size step; missing filter returns the quantity unchanged; a zero
step returns 0. -/
def adjust_quantity_to_step (f : SymbolFilters) (symbol : String)
    (quantity : ℚ) : ℚ :=
  match f.stepOf symbol with
  | none => quantity
  | some step =>
      if step = 0 then 0
      else (roundDownInt (quantity / step) : ℚ) * step

/-- `SymbolFilters.adjust_price_to_tick`: round the price half-up to the
nearest tick; missing filter or zero tick returns the price unchanged. -/
def adjust_price_to_tick (f : SymbolFilters) (symbol : String) (price : ℚ) :
    ℚ :=
  match f.tickOf symbol with
  | none => price
  | some tick =>
      if tick = 0 then price
      else (roundHalfUpInt (price / tick) : ℚ) * tick

/-- `SymbolFilters.validate_min_notional`: `quantity * price < minNotional`
is a rejection; a missing filter validates. -/
def validate_min_notional (f : SymbolFilters) (symbol : String)
    (quantity price : ℚ) : Bool :=
  match f.minNotionalOf symbol with
  | none => true
  | some mn => !(quantity * price < mn)

/-! ## Risk Manager (`bots/risk_manager.py`) -/

/-- A kline row after column selection and `astype(float)`
(`DATA_FRAME_COLUMNS` minus the timestamp index). -/
structure Kline where
  op : ℚ
  hi : ℚ
  lo : ℚ
  close : ℚ
  volume : ℚ
deriving DecidableEq, Repr

/-- A row of the DataFrame produced by `_fetch_data_for_atr`: OHLCV plus
the `ATR` column (`none` = NaN). -/
structure AtrRow where
  op : ℚ
  hi : ℚ
  lo : ℚ
  close : ℚ
  volume : ℚ
  atr : Option ℚ
deriving DecidableEq, Repr

/-- `Series.bfill`: each NaN is replaced by the next non-NaN value after
it (if any). -/
def bfill : List (Option ℚ) → List (Option ℚ)
  | [] => []
  | x :: xs =>
      let rest := bfill xs
      match x with
      | some v => some v :: rest
      | none => rest.headD none :: rest

/-- `Series.ffill` with a running carry: each NaN is replaced by the last
non-NaN value before it (if any). -/
def ffillFrom (carry : Option ℚ) : List (Option ℚ) → List (Option ℚ)
  | [] => []
  | x :: xs =>
      match x with
      | some v => some v :: ffillFrom (some v) xs
      | none => carry :: ffillFrom carry xs

def ffill (xs : List (Option ℚ)) : List (Option ℚ) := ffillFrom none xs

/-- `SL_ATR_MULTIPLIER` (risk_manager.py). -/
def slAtrMultiplier : ℚ := 3/2

/-- `TP_ATR_MULTIPLIER` (risk_manager.py). -/
def tpAtrMultiplier : ℚ := 3

/-- `RiskManagerBot._fetch_data_for_atr`, modelled on the data it receives:
`klines` is the list returned by `get_klines` (already parsed to numbers)
and `atrRaw` is the `ATR` column computed by the external indicator
library `finta` (`TA.ATR`), with `none` for NaN.  An empty kline response
(or a fetch exception, which the source maps to the same empty frame)
yields an empty frame.  When the ATR column is entirely NaN the source
overwrites the whole column with the constant default `100.0`; otherwise
remaining NaNs are backward- then forward-filled. -/
def mkAtrRow (k : Kline) (a : Option ℚ) : AtrRow :=
  { op := k.op, hi := k.hi, lo := k.lo, close := k.close,
    volume := k.volume, atr := a }

def fetchDataForATR (klines : List Kline) (atrRaw : List (Option ℚ)) :
    List AtrRow :=
  if klines = [] then []
  else
    let atrCol :=
      if atrRaw.all (fun x => x = none) then atrRaw.map (fun _ => some 100)
      else ffill (bfill atrRaw)
    List.zipWith mkAtrRow klines atrCol

/-- The external calls and the publish performed by
`RiskManagerBot._on_trade_signal`, in execution order. -/
inductive RMCall where
  | getPositions
  | fetchKlines (symbol : String)
  | getBalance
  | publishOrder (req : OrderRequest)
deriving DecidableEq, Repr

/-- Environment of one `_on_trade_signal` invocation: the results the
external collaborators would return, plus configuration
(`settings.MAX_CONCURRENT_TRADES`, `settings.RISK_PER_TRADE_PERCENT`) and
the wall-clock milliseconds used for the client order id. -/
structure RiskEnv where
  openPositionKeys : List String
  klines : List Kline
  atrRaw : List (Option ℚ)
  balance : ℚ
  filters : SymbolFilters
  maxConcurrentTrades : ℕ
  riskPerTradePercent : ℚ
  nowMs : ℕ
deriving Repr

/-- `RiskManagerBot._on_trade_signal` given the DataFrame returned by
`_fetch_data_for_atr`.  Returns the published `OrderRequest` (or `none`
on rejection) together with the external calls made after the fetch. -/
def onTradeSignalWithDf (env : RiskEnv) (sig : TradeSignal)
    (df : List AtrRow) : Option OrderRequest × List RMCall :=
  if df = [] ∨ df.all (fun r => r.atr = none) then (none, [])
  else
    match df.getLast? with
    | none => (none, [])
    | some lastRow =>
        let current_price := lastRow.close
        match lastRow.atr with
        | none => (none, [])
        | some atr_value =>
            if atr_value = 0 then (none, [])
            else
              let distance_to_sl := atr_value * slAtrMultiplier
              let distance_to_tp := atr_value * tpAtrMultiplier
              let sl_raw :=
                if sig.side = OrderSide.BUY then current_price - distance_to_sl
                else current_price + distance_to_sl
              let tp_raw :=
                if sig.side = OrderSide.BUY then current_price + distance_to_tp
                else current_price - distance_to_tp
              let sl_price := adjust_price_to_tick env.filters sig.symbol sl_raw
              let tp_price := adjust_price_to_tick env.filters sig.symbol tp_raw
              if env.balance ≤ 0 then (none, [RMCall.getBalance])
              else
                let risk_per_trade_usd := env.balance * env.riskPerTradePercent
                let risk_per_unit_usd := |current_price - sl_price|
                if risk_per_unit_usd = 0 then (none, [RMCall.getBalance])
                else
                  let quantity := risk_per_trade_usd / risk_per_unit_usd
                  let quantity_adjusted :=
                    adjust_quantity_to_step env.filters sig.symbol quantity
                  if quantity_adjusted = 0 then (none, [RMCall.getBalance])
                  else if !(validate_min_notional env.filters sig.symbol
                      quantity_adjusted current_price) then
                    (none, [RMCall.getBalance])
                  else
                    let req : OrderRequest :=
                      { symbol := sig.symbol
                        side := sig.side
                        order_type := OrderType.MARKET
                        quantity := quantity_adjusted
                        client_order_id :=
                          "syn_" ++ sig.side.value ++ "_" ++ sig.symbol ++
                            "_" ++ toString env.nowMs
                        price := none
                        sl_price := some sl_price
                        tp_price := some tp_price
                        timeout_seconds := none
                        strategy := some sig.strategy }
                    (some req,
                      [RMCall.getBalance, RMCall.publishOrder req])

/-- `RiskManagerBot._on_trade_signal`: gate sequence (concurrency cap,
duplicate symbol, ATR availability, balance, sizing, exchange rules),
then the publish.  The returned call list is the full external trace. -/
def onTradeSignal (env : RiskEnv) (sig : TradeSignal) :
    Option OrderRequest × List RMCall :=
  if env.maxConcurrentTrades ≤ env.openPositionKeys.length then
    (none, [RMCall.getPositions])
  else if env.openPositionKeys.contains sig.symbol then
    (none, [RMCall.getPositions])
  else
    let df := fetchDataForATR env.klines env.atrRaw
    let res := onTradeSignalWithDf env sig df
    (res.1, RMCall.getPositions :: RMCall.fetchKlines sig.symbol :: res.2)

/-! ## Executor (`bots/executor.py`) -/

/-- Parameters of a `binance_client.create_order` call. -/
structure CreateOrderParams where
  symbol : String
  side : String
  otype : String
  quantity : ℚ
  newClientOrderId : String
  price : Option ℚ := none
  timeInForce : Option String := none
deriving DecidableEq, Repr

/-- The successful external effects of `ExecutorBot._on_order_request`:
a pending-order cache write, a cache delete, or the exchange
`create_order` call. -/
inductive ExAction where
  | cacheWrite (id : String) (req : OrderRequest)
  | cacheDelete (id : String)
  | createOrder (p : CreateOrderParams)
deriving DecidableEq, Repr

/-- Outcome of the exchange submission attempt (and of the surrounding
try-block once the cache write has succeeded). -/
inductive SubmitOutcome where
  /-- `create_order` returns an ack. -/
  | ok
  /-- `create_order` raises `BinanceAPIException` (exchange rejection). -/
  | apiError
  /-- an unexpected exception before the submission is attempted. -/
  | errBeforeSubmit
  /-- an unexpected exception from the submission itself. -/
  | errDuringSubmit
deriving DecidableEq, Repr

/-- `ExecutorBot._on_order_request`: cache-write first (abort on failure),
then the LIMIT-price precondition, then submission; exchange rejection or
an unexpected error deletes the cache entry.  `cacheWriteOk` drives the
`set_state` attempt; the returned list records the successful effects in
execution order (a `createOrder` entry records that the exchange call was
made, whether or not it succeeded). -/
def onOrderRequest (cacheWriteOk : Bool) (submit : SubmitOutcome)
    (req : OrderRequest) : List ExAction :=
  if cacheWriteOk = false then []
  else
    let id := req.client_order_id
    let written := [ExAction.cacheWrite id req]
    if req.order_type = OrderType.LIMIT ∧ req.price = none then
      written ++ [ExAction.cacheDelete id]
    else
      let params : CreateOrderParams :=
        { symbol := req.symbol
          side := req.side.value
          otype := req.order_type.value
          quantity := req.quantity
          newClientOrderId := id
          price := if req.order_type = OrderType.LIMIT then req.price else none
          timeInForce :=
            if req.order_type = OrderType.LIMIT then some "GTC" else none }
      match submit with
      | .ok => written ++ [ExAction.createOrder params]
      | .apiError =>
          written ++ [ExAction.createOrder params, ExAction.cacheDelete id]
      | .errBeforeSubmit => written ++ [ExAction.cacheDelete id]
      | .errDuringSubmit =>
          written ++ [ExAction.createOrder params, ExAction.cacheDelete id]

/-! ## Monitor (`bots/monitor.py`) -/

/-- One fill message from the execution-report stream
(`c`, `s`, `L`, `q`, `S`, `T` fields of an `executionReport` with
status `FILLED`). -/
structure FillMsg where
  client_order_id : String
  symbol : String
  fill_price : ℚ
  fill_qty : ℚ
  side : OrderSide
  fill_time : ℤ
deriving DecidableEq, Repr

/-- Successful external effects of the Monitor handlers, in execution
order. -/
inductive MonAction where
  | cacheDelete (id : String)
  | posWrite (symbol : String) (p : Position)
  | publishOpened (p : Position)
  | posDelete (symbol : String)
  | dbLog (t : TradeLog)
  | publishClosed (t : TradeLog)
  | publishPnl (symbol : String) (pnl : ℚ) (price : ℚ)
  | watchRemove (symbol : String)
  | publishExit (req : OrderRequest)
deriving DecidableEq, Repr

/-- Mutable state visible to the Monitor: the two store collections, the
durable trade log, and the in-process watch-set (`watched_symbols`). -/
structure MonitorState where
  pendingOrders : List (String × OrderRequest)
  positions : List (String × Position)
  tradeLog : List TradeLog
  watched : Finset String
deriving DecidableEq

/-- Outcome of the entry try-block of `_process_order_fill`
(`set_state` + watch-add + `position_opened` publish share one `except`).
-/
inductive EntryOutcome where
  | ok
  /-- the position `set_state` raises. -/
  | setStateFails
  /-- the `position_opened` publish raises (after a successful write). -/
  | publishFails
deriving DecidableEq, Repr

/-- Failure oracle for one `_process_order_fill` invocation. -/
structure FillOracle where
  getCacheOk : Bool := true
  delCacheOk : Bool := true
  entry : EntryOutcome := .ok
  getPosOk : Bool := true
  delPosOk : Bool := true
  dbOk : Bool := true
  publishClosedOk : Bool := true
deriving DecidableEq, Repr

/-- The entry-vs-exit discriminator of `_process_order_fill`: the filled
side equals the cached request side and the request carries a stop-loss
price. -/
def classifiesAsEntry (req : OrderRequest) (fillSide : OrderSide) : Bool :=
  fillSide = req.side ∧ req.sl_price ≠ none

/-- The trade-log dictionary the exit branch of `_process_order_fill`
builds: realized P/L `(exit − entry) × qty` for a long (mirror for a
short), and P/L percent `pnl / (entry × qty) × 100` (0 on a zero entry
value). -/
def exitTradeLog (oldPos : Position) (msg : FillMsg) : TradeLog :=
  let pnl :=
    if oldPos.side = OrderSide.BUY then
      (msg.fill_price - oldPos.entry_price) * oldPos.quantity
    else
      (oldPos.entry_price - msg.fill_price) * oldPos.quantity
  let entry_value := oldPos.entry_price * oldPos.quantity
  { symbol := msg.symbol
    strategy := oldPos.strategy
    side := oldPos.side.value
    quantity := oldPos.quantity
    entry_price := oldPos.entry_price
    exit_price := msg.fill_price
    pnl := pnl
    pnl_percent := if entry_value ≠ 0 then pnl / entry_value * 100 else 0
    timestamp_entry := oldPos.entry_timestamp
    timestamp_exit := msg.fill_time }

/-- `MonitorBot._process_order_fill`.  Returns the new state and the
successful external effects in execution order. -/
def processOrderFill (st : MonitorState) (orc : FillOracle) (msg : FillMsg) :
    MonitorState × List MonAction :=
  if msg.client_order_id = "" ∨ msg.symbol = "" then (st, [])
  else if orc.getCacheOk = false then (st, [])
  else
    match lookupK st.pendingOrders msg.client_order_id with
    | none => (st, [])
    | some req =>
        let stDel :=
          if orc.delCacheOk then
            ({ st with
                pendingOrders := eraseK st.pendingOrders msg.client_order_id },
              [MonAction.cacheDelete msg.client_order_id])
          else (st, ([] : List MonAction))
        let st1 := stDel.1
        let tr1 := stDel.2
        if classifiesAsEntry req msg.side then
          let newPos : Position :=
            { symbol := msg.symbol
              strategy := req.strategy.getD "Unknown"
              side := msg.side
              quantity := msg.fill_qty
              entry_price := msg.fill_price
              entry_timestamp := msg.fill_time
              sl_price := (req.sl_price).getD 0
              tp_price := req.tp_price
              tsl_highest_price := msg.fill_price }
          match orc.entry with
          | .ok =>
              ({ st1 with
                  positions := insertK st1.positions msg.symbol newPos
                  watched := insert msg.symbol st1.watched },
                tr1 ++ [MonAction.posWrite msg.symbol newPos,
                  MonAction.publishOpened newPos])
          | .setStateFails =>
              ({ st1 with watched := st1.watched.erase msg.symbol }, tr1)
          | .publishFails =>
              ({ st1 with
                  positions := insertK st1.positions msg.symbol newPos
                  watched :=
                    (insert msg.symbol st1.watched).erase msg.symbol },
                tr1 ++ [MonAction.posWrite msg.symbol newPos])
        else
          if orc.getPosOk = false then (st1, tr1)
          else
            match lookupK st1.positions msg.symbol with
            | none => (st1, tr1)
            | some oldPos =>
                let stDelPos :=
                  if orc.delPosOk then
                    ({ st1 with
                        positions := eraseK st1.positions msg.symbol },
                      tr1 ++ [MonAction.posDelete msg.symbol])
                  else (st1, tr1)
                let st2 := stDelPos.1
                let tr2 := stDelPos.2
                let tlog : TradeLog := exitTradeLog oldPos msg
                let stDb :=
                  if orc.dbOk then
                    ({ st2 with tradeLog := st2.tradeLog ++ [tlog] },
                      tr2 ++ [MonAction.dbLog tlog])
                  else (st2, tr2)
                if orc.publishClosedOk then
                  (stDb.1, stDb.2 ++ [MonAction.publishClosed tlog])
                else (stDb.1, stDb.2)

/-- The exit `OrderRequest` `_check_position_sl_tp` synthesizes on a
stop-loss/take-profit trigger: side reversed, full position quantity,
no stop/target fields. -/
def exitRequest (pos : Position) (symbol : String) (nowMs : ℕ)
    (slHit : Bool) : OrderRequest :=
  let exit_reason := if slHit then "Stop Loss" else "Take Profit"
  { symbol := symbol
    side :=
      if pos.side = OrderSide.BUY then OrderSide.SELL else OrderSide.BUY
    order_type := OrderType.MARKET
    quantity := pos.quantity
    client_order_id :=
      "syn_EXIT_" ++ pos.side.value ++ "_" ++ symbol ++ "_" ++
        toString nowMs
    sl_price := none
    tp_price := none
    strategy := some ("Exit (" ++ exit_reason ++ ")") }

/-- Failure oracle for one `_check_position_sl_tp` invocation. -/
structure TickOracle where
  getPosOk : Bool := true
  exitPublishOk : Bool := true
deriving DecidableEq, Repr

/-- `MonitorBot._check_position_sl_tp` for one watched symbol and one tick
price.  The PNL publish is scheduled with `create_task`; it is recorded in
the trace at its scheduling point.  Note the Python truthiness of
`pos.tp_price`: a `None` or `0.0` take-profit disables the TP check. -/
def checkPositionSlTp (st : MonitorState) (orc : TickOracle) (nowMs : ℕ)
    (symbol : String) (current_price : ℚ) : MonitorState × List MonAction :=
  if orc.getPosOk = false then (st, [])
  else
    match lookupK st.positions symbol with
    | none => ({ st with watched := st.watched.erase symbol }, [])
    | some pos =>
        let pnl :=
          if pos.side = OrderSide.BUY then
            (current_price - pos.entry_price) * pos.quantity
          else
            (pos.entry_price - current_price) * pos.quantity
        let tr0 := [MonAction.publishPnl symbol pnl current_price]
        let slHit : Bool :=
          if pos.side = OrderSide.BUY then current_price ≤ pos.sl_price
          else pos.sl_price ≤ current_price
        let tpHit : Bool :=
          match pos.tp_price with
          | none => false
          | some tp =>
              tp ≠ 0 &&
                (if pos.side = OrderSide.BUY then tp ≤ current_price
                  else decide (current_price ≤ tp))
        if slHit || tpHit then
          if symbol ∈ st.watched then
            let req : OrderRequest := exitRequest pos symbol nowMs slHit
            let st1 := { st with watched := st.watched.erase symbol }
            if orc.exitPublishOk then
              (st1, tr0 ++ [MonAction.watchRemove symbol,
                MonAction.publishExit req])
            else
              (st1, tr0 ++ [MonAction.watchRemove symbol])
          else (st, tr0)
        else (st, tr0)

/-! ## Derived observations used in statements -/

/-- The ATR value the Risk Manager would read off the last row of the
fetched frame (`df_atr.iloc[-1]["ATR"]`). -/
def atrOf (env : RiskEnv) : Option ℚ :=
  ((fetchDataForATR env.klines env.atrRaw).getLast?).bind (fun r => r.atr)

/-- The current price the Risk Manager would read off the last row of the
fetched frame (`df_atr.iloc[-1]["close"]`). -/
def lastCloseOf (env : RiskEnv) : Option ℚ :=
  ((fetchDataForATR env.klines env.atrRaw).getLast?).map (fun r => r.close)

/-- Whether a Monitor action is a position-store write. -/
def isPosWriteAct : MonAction → Bool
  | .posWrite _ _ => true
  | _ => false

/-- Whether a Monitor action is an exit `OrderRequest` publish. -/
def isPublishExitAct : MonAction → Bool
  | .publishExit _ => true
  | _ => false

/-! ## Concrete fixtures for counterexamples and witnesses -/

/-- A flat candle: high = low = open = close, so the true range — and
hence a real `TA.ATR` warm-up — can be made arbitrarily small. -/
def flatKline (c : ℚ) : Kline :=
  { op := c, hi := c, lo := c, close := c, volume := 1000 }

def sigBuyBTC : TradeSignal :=
  { symbol := "BTCUSDT", side := OrderSide.BUY, strategy := "EMA_CROSS" }

/-- Exchange rules resembling the test fixtures: step 0.0001, tick 0.01,
minNotional 10. -/
def filtersBTC : SymbolFilters :=
  { table := [("BTCUSDT",
      { stepSize := some (1/10000), tickSize := some (1/100),
        minNotional := some 10 })] }

/-- C1 counterexample environment: two real candles, `TA.ATR` returning
NaN for every row (warm-up), balance 1000 USDT, no open positions. -/
def envC1 : RiskEnv :=
  { openPositionKeys := []
    klines := [flatKline 20000, flatKline 20490]
    atrRaw := [none, none]
    balance := 1000
    filters := filtersBTC
    maxConcurrentTrades := 10
    riskPerTradePercent := 1/200
    nowMs := 0 }

/-- C7 counterexample environment: last close 99.6, a genuine tiny ATR of
0.01 (flat, tightly spaced candles), price tick 1. -/
def envC7 : RiskEnv :=
  { openPositionKeys := []
    klines := [flatKline (498/5)]
    atrRaw := [some (1/100)]
    balance := 10000
    filters := { table := [("BTCUSDT",
        { stepSize := some (1/1000), tickSize := some 1,
          minNotional := some 10 })] }
    maxConcurrentTrades := 10
    riskPerTradePercent := 1/200
    nowMs := 0 }

/-- An entry `OrderRequest` as the Risk Manager would publish it (carries
a stop loss). -/
def entryReqX : OrderRequest :=
  { symbol := "XUSDT", side := OrderSide.BUY, order_type := OrderType.MARKET,
    quantity := 2, client_order_id := "id_entry",
    sl_price := some 90, tp_price := some 120, strategy := some "S" }

/-- An exit `OrderRequest` as the Monitor synthesizes it (no stop/target).
-/
def exitReqX : OrderRequest :=
  { symbol := "XUSDT", side := OrderSide.SELL, order_type := OrderType.MARKET,
    quantity := 2, client_order_id := "id_exit",
    sl_price := none, tp_price := none, strategy := some "Exit (Stop Loss)" }

def posLongX : Position :=
  { symbol := "XUSDT", strategy := "S", side := OrderSide.BUY, quantity := 2,
    entry_price := 100, entry_timestamp := 0, sl_price := 90,
    tp_price := some 120 }

/-- Monitor state for the C3 counterexample: one pending exit order and
one open long position. -/
def stC3 : MonitorState :=
  { pendingOrders := [("id_exit", exitReqX)]
    positions := [("XUSDT", posLongX)]
    tradeLog := []
    watched := {"XUSDT"} }

/-- The exit fill for `exitReqX` at price 110. -/
def msgC3 : FillMsg :=
  { client_order_id := "id_exit", symbol := "XUSDT", fill_price := 110,
    fill_qty := 2, side := OrderSide.SELL, fill_time := 7 }

/-- Monitor state for the C8 counterexample: one pending entry order,
no open positions yet. -/
def stC8 : MonitorState :=
  { pendingOrders := [("id_entry", entryReqX)]
    positions := []
    tradeLog := []
    watched := ∅ }

/-- The entry fill for `entryReqX`. -/
def msgC8 : FillMsg :=
  { client_order_id := "id_entry", symbol := "XUSDT", fill_price := 100,
    fill_qty := 2, side := OrderSide.BUY, fill_time := 3 }

/-- A long position whose stored take-profit price is 0.0 (reachable:
tick rounding of a SELL target can produce 0.0). -/
def posTpZero : Position :=
  { symbol := "XUSDT", strategy := "S", side := OrderSide.BUY, quantity := 2,
    entry_price := 3, entry_timestamp := 0, sl_price := 1,
    tp_price := some 0 }

/-- Monitor state for the C5 counterexample. -/
def stC5 : MonitorState :=
  { pendingOrders := []
    positions := [("XUSDT", posTpZero)]
    tradeLog := []
    watched := {"XUSDT"} }

/-- C6 witness environment: eleven open positions against a maximum of
ten (the spec scenario). -/
def envC6 : RiskEnv :=
  { openPositionKeys := ["S0", "S1", "S2", "S3", "S4", "S5", "S6", "S7",
      "S8", "S9", "S10"]
    klines := [flatKline 20000]
    atrRaw := [some 50]
    balance := 1000
    filters := filtersBTC
    maxConcurrentTrades := 10
    riskPerTradePercent := 1/200
    nowMs := 0 }

/-- C10 witness state: the watch-set contains a symbol with no stored
position. -/
def stC10 : MonitorState :=
  { pendingOrders := []
    positions := []
    tradeLog := []
    watched := {"XUSDT"} }

/-- C5 witness state: a long position and its symbol in the watch-set. -/
def stC5w : MonitorState :=
  { pendingOrders := []
    positions := [("XUSDT", posLongX)]
    tradeLog := []
    watched := {"XUSDT"} }

/-- C8 counterexample oracle: the position-store write succeeds but the
`position_opened` publish raises inside the same try-block. -/
def orcC8pf : FillOracle :=
  { entry := EntryOutcome.publishFails }

/-- The position `_process_order_fill` builds from `msgC8` and
`entryReqX`. -/
def posC8new : Position :=
  { symbol := "XUSDT", strategy := "S", side := OrderSide.BUY, quantity := 2,
    entry_price := 100, entry_timestamp := 3, sl_price := 90,
    tp_price := some 120, tsl_highest_price := 100 }

/-- The order `envC1` leads the Risk Manager to publish (quantity
5/150 stepped down to 0.0333; stop/target 20490 ∓ 150/300). -/
def reqC1pub : OrderRequest :=
  { symbol := "BTCUSDT", side := OrderSide.BUY,
    order_type := OrderType.MARKET, quantity := 333/10000,
    client_order_id := "syn_BUY_BTCUSDT_0", price := none,
    sl_price := some 20340, tp_price := some 20790,
    timeout_seconds := none, strategy := some "EMA_CROSS" }

/-! ## Helper lemmas -/

theorem lookupK_eraseK_self {α : Type} (l : List (String × α)) (key : String) :
    lookupK (eraseK l key) key = none := by
  induction l with
  | nil => rfl
  | cons hd tl ih =>
      obtain ⟨k, v⟩ := hd
      by_cases h : key = k
      · subst h; simp [eraseK, ih]
      · simp [eraseK, h, lookupK, ih]

theorem lookupK_insertK_self {α : Type} (l : List (String × α)) (key : String)
    (v : α) : lookupK (insertK l key v) key = some v := by
  simp [insertK, lookupK]

theorem roundHalfUpInt_le (y : ℚ) : (roundHalfUpInt y : ℚ) ≤ y + 1/2 := by
  unfold roundHalfUpInt
  split
  · exact_mod_cast Int.floor_le (y + 1/2)
  · push_cast
    have h := Int.sub_one_lt_floor (-y + 1/2)
    linarith

theorem le_roundHalfUpInt (y : ℚ) : y - 1/2 ≤ (roundHalfUpInt y : ℚ) := by
  unfold roundHalfUpInt
  split
  · have h := Int.sub_one_lt_floor (y + 1/2)
    push_cast at h ⊢
    linarith
  · have h := Int.floor_le (-y + 1/2)
    push_cast
    linarith

/-- If a tick size is configured and positive, the tick-rounded price is
within half a tick of the raw price. -/
theorem adjust_price_to_tick_bounds (f : SymbolFilters) (sym : String)
    (x t : ℚ) (ht : f.tickOf sym = some t) (ht0 : 0 < t) :
    x - t/2 ≤ adjust_price_to_tick f sym x ∧
      adjust_price_to_tick f sym x ≤ x + t/2 := by
  unfold adjust_price_to_tick
  rw [ht]
  dsimp only
  rw [if_neg ht0.ne']
  have hle := mul_le_mul_of_nonneg_right (roundHalfUpInt_le (x/t)) ht0.le
  have hge := mul_le_mul_of_nonneg_right (le_roundHalfUpInt (x/t)) ht0.le
  have hx : x / t * t = x := div_mul_cancel₀ x ht0.ne'
  constructor
  · calc x - t/2 = x/t * t - 1/2 * t := by rw [hx]; ring
    _ = (x/t - 1/2) * t := by ring
    _ ≤ (roundHalfUpInt (x/t) : ℚ) * t := hge
  · calc (roundHalfUpInt (x/t) : ℚ) * t ≤ (x/t + 1/2) * t := hle
    _ = x/t * t + 1/2 * t := by ring
    _ = x + t/2 := by rw [hx]; ring

/-- The head of a list that is not the split element lies left of any
split of that list at that element. -/
theorem mem_left_of_cons_eq_append {α : Type} {x y : α} {rest l1 l2 : List α}
    (h : x :: rest = l1 ++ y :: l2) (hne : x ≠ y) : x ∈ l1 := by
  cases l1 with
  | nil =>
      rw [List.nil_append] at h
      injection h with h1 _
      exact absurd h1 hne
  | cons a t =>
      rw [List.cons_append] at h
      injection h with h1 _
      rw [h1]
      exact List.mem_cons_self a t

/-! ## Claim C6 -/

/-- C6: a `TradeSignal` arriving while the positions collection already
holds at least `MAX_CONCURRENT_TRADES` open positions is rejected with no
published `OrderRequest`, and — the cap being the first gate — the only
external call made is the positions read: no kline fetch, no balance
fetch. -/
theorem rm_concurrency_cap_rejects_first (env : RiskEnv) (sig : TradeSignal)
    (h : env.maxConcurrentTrades ≤ env.openPositionKeys.length) :
    onTradeSignal env sig = (none, [RMCall.getPositions]) := by
  unfold onTradeSignal
  rw [if_pos h]

theorem rm_concurrency_cap_rejects_first_witness :
    envC6.maxConcurrentTrades ≤ envC6.openPositionKeys.length ∧
    onTradeSignal envC6 sigBuyBTC = (none, [RMCall.getPositions]) :=
  ⟨by decide, rm_concurrency_cap_rejects_first envC6 sigBuyBTC (by decide)⟩

/-! ## Claim C2 -/

/-- C2: the Executor submits to the exchange only after the request has
been successfully written to the pending-order cache under its
`client_order_id`; if the cache write fails, the handler returns without
any submission (and without any other effect). -/
theorem executor_cache_write_precedes_create_order (cw : Bool)
    (s : SubmitOutcome) (req : OrderRequest) :
    (cw = false → onOrderRequest cw s req = []) ∧
    ∀ l1 p l2, onOrderRequest cw s req = l1 ++ ExAction.createOrder p :: l2 →
      ExAction.cacheWrite req.client_order_id req ∈ l1 := by
  constructor
  · intro h
    subst h
    rfl
  · intro l1 p l2 h
    cases cw with
    | false => simp [onOrderRequest] at h
    | true =>
        unfold onOrderRequest at h
        simp only [Bool.true_eq_false, if_false, List.cons_append,
          List.nil_append] at h
        split at h
        · exact mem_left_of_cons_eq_append h (by simp)
        · split at h <;> exact mem_left_of_cons_eq_append h (by simp)

theorem executor_cache_write_precedes_create_order_witness :
    ((false : Bool) = false → onOrderRequest false SubmitOutcome.ok exitReqX = []) ∧
    ∀ l1 p l2,
      onOrderRequest false SubmitOutcome.ok exitReqX =
        l1 ++ ExAction.createOrder p :: l2 →
      ExAction.cacheWrite exitReqX.client_order_id exitReqX ∈ l1 :=
  executor_cache_write_precedes_create_order false SubmitOutcome.ok exitReqX

/-! ## Claim C10 -/

/-- C10: a market tick for a symbol in the watch-set with no stored
position removes the symbol from the watch-set and does nothing else: no
published event, no store mutation; every other state component is
unchanged. -/
theorem monitor_stale_watch_tick_noop (st : MonitorState) (orc : TickOracle)
    (nowMs : ℕ) (symbol : String) (price : ℚ)
    (hok : orc.getPosOk = true) (hmem : symbol ∈ st.watched)
    (hpos : lookupK st.positions symbol = none) :
    checkPositionSlTp st orc nowMs symbol price =
      ({ st with watched := st.watched.erase symbol }, []) ∧
    symbol ∉ (checkPositionSlTp st orc nowMs symbol price).1.watched := by
  have heq : checkPositionSlTp st orc nowMs symbol price =
      ({ st with watched := st.watched.erase symbol }, []) := by
    unfold checkPositionSlTp
    rw [hok]
    simp only [Bool.true_eq_false, if_false]
    rw [hpos]
  refine ⟨heq, ?_⟩
  rw [heq]
  exact Finset.not_mem_erase _ _

theorem monitor_stale_watch_tick_noop_witness :
    (checkPositionSlTp stC10 {} 0 "XUSDT" 5 =
      ({ stC10 with watched := stC10.watched.erase "XUSDT" }, []) ∧
    "XUSDT" ∉ (checkPositionSlTp stC10 {} 0 "XUSDT" 5).1.watched) :=
  monitor_stale_watch_tick_noop stC10 {} 0 "XUSDT" 5 rfl (by decide) rfl

/-! ## Claim C9 -/

/-- C9: for a symbol with a configured (nonnegative) lot-size step and a
nonnegative quantity, `adjust_quantity_to_step` returns an exact
natural multiple of the step, never exceeds the input, and is
idempotent. -/
theorem adjust_quantity_step_multiple_idempotent (f : SymbolFilters)
    (symbol : String) (q s : ℚ) (hs : f.stepOf symbol = some s)
    (hs0 : 0 ≤ s) (hq : 0 ≤ q) :
    (∃ k : ℕ, adjust_quantity_to_step f symbol q = (k : ℚ) * s) ∧
    adjust_quantity_to_step f symbol q ≤ q ∧
    adjust_quantity_to_step f symbol (adjust_quantity_to_step f symbol q) =
      adjust_quantity_to_step f symbol q := by
  by_cases h0 : s = 0
  · subst h0
    have hv : adjust_quantity_to_step f symbol q = 0 := by
      unfold adjust_quantity_to_step
      rw [hs]
      simp
    refine ⟨⟨0, by rw [hv]; ring⟩, by rw [hv]; exact hq, ?_⟩
    rw [hv]
    unfold adjust_quantity_to_step
    rw [hs]
    simp
  · have hspos : 0 < s := lt_of_le_of_ne hs0 (Ne.symm h0)
    have hdiv : 0 ≤ q / s := div_nonneg hq hs0
    have hfl : 0 ≤ ⌊q / s⌋ := Int.floor_nonneg.mpr hdiv
    have hv : adjust_quantity_to_step f symbol q = (⌊q / s⌋ : ℚ) * s := by
      unfold adjust_quantity_to_step
      rw [hs]
      simp only [h0, if_false]
      unfold roundDownInt
      rw [if_pos hdiv]
    refine ⟨⟨⌊q / s⌋.toNat, ?_⟩, ?_, ?_⟩
    · rw [hv]
      congr 1
      exact_mod_cast (Int.toNat_of_nonneg hfl).symm
    · rw [hv]
      calc (⌊q / s⌋ : ℚ) * s ≤ (q / s) * s :=
            mul_le_mul_of_nonneg_right (Int.floor_le _) hs0
      _ = q := div_mul_cancel₀ q h0
    · rw [hv]
      unfold adjust_quantity_to_step
      rw [hs]
      simp only [h0, if_false]
      unfold roundDownInt
      have harg : (⌊q / s⌋ : ℚ) * s / s = (⌊q / s⌋ : ℚ) :=
        mul_div_cancel_right₀ _ h0
      rw [harg, if_pos (by exact_mod_cast hfl), Int.floor_intCast]

attribute [local semireducible] Rat.mul Rat.add Rat.sub Rat.inv Rat.ofScientific in
theorem adjust_quantity_step_multiple_idempotent_witness :
    (∃ k : ℕ, adjust_quantity_to_step filtersBTC "BTCUSDT" (12345678/100000000)
        = (k : ℚ) * (1/10000)) ∧
    adjust_quantity_to_step filtersBTC "BTCUSDT" (12345678/100000000) ≤
      12345678/100000000 ∧
    adjust_quantity_to_step filtersBTC "BTCUSDT"
        (adjust_quantity_to_step filtersBTC "BTCUSDT" (12345678/100000000)) =
      adjust_quantity_to_step filtersBTC "BTCUSDT" (12345678/100000000) :=
  adjust_quantity_step_multiple_idempotent filtersBTC "BTCUSDT"
    (12345678/100000000) (1/10000) (by decide) (by decide) (by decide)

/-! ## Claim C4 -/

/-- C4: a FILLED report matched to a cached request is processed as an
entry (a position-store write happens, given a healthy store) precisely
when the filled side equals the cached request side and the request
carries a stop-loss price; in every other case no position write occurs
(exit path). -/
theorem monitor_fill_entry_iff_side_matches_and_sl (st : MonitorState)
    (orc : FillOracle) (msg : FillMsg) (req : OrderRequest)
    (hid : msg.client_order_id ≠ "") (hsym : msg.symbol ≠ "")
    (hreq : lookupK st.pendingOrders msg.client_order_id = some req)
    (hget : orc.getCacheOk = true) (hentry : orc.entry = EntryOutcome.ok) :
    ((processOrderFill st orc msg).2.any isPosWriteAct = true) ↔
      (msg.side = req.side ∧ req.sl_price ≠ none) := by
  have hbranch : classifiesAsEntry req msg.side = true ↔
      (msg.side = req.side ∧ req.sl_price ≠ none) := by
    simp [classifiesAsEntry]
  rw [← hbranch]
  cases hcl : classifiesAsEntry req msg.side with
  | true =>
      by_cases horc : orc.delCacheOk = true <;>
        simp [processOrderFill, hid, hsym, hreq, hget, hentry, hcl, horc,
          isPosWriteAct]
  | false =>
      by_cases horc : orc.delCacheOk = true <;>
      by_cases hgp : orc.getPosOk = true <;>
      rcases hpos : lookupK st.positions msg.symbol with _ | oldPos <;>
      by_cases hdp : orc.delPosOk = true <;>
      by_cases hdb : orc.dbOk = true <;>
      by_cases hpc : orc.publishClosedOk = true <;>
        simp [processOrderFill, hid, hsym, hreq, hget, hcl, horc, hgp, hpos,
          hdp, hdb, hpc, isPosWriteAct]

theorem monitor_fill_entry_iff_side_matches_and_sl_witness :
    ((processOrderFill stC8 {} msgC8).2.any isPosWriteAct = true) ↔
      (msgC8.side = entryReqX.side ∧ entryReqX.sl_price ≠ none) :=
  monitor_fill_entry_iff_side_matches_and_sl stC8 {} msgC8 entryReqX
    (by decide) (by decide) (by decide) rfl rfl

/-! ## Claim C1 -/

attribute [local semireducible] Rat.mul Rat.add Rat.sub Rat.inv Rat.ofScientific in
/-- C1 counterexample: two real candles, every `TA.ATR` entry NaN — yet
the Risk Manager publishes an `OrderRequest`, computed from the
substituted default ATR of 100 (stop at 20490 − 1.5·100 = 20340).  The
claim asserts the signal would be rejected with zero publishes. -/
theorem rm_all_nan_atr_publishes_counterexample :
    envC1.klines ≠ [] ∧
    envC1.atrRaw.all (fun x => x = none) = true ∧
    (onTradeSignal envC1 sigBuyBTC).1.isSome = true ∧
    ((onTradeSignal envC1 sigBuyBTC).1.bind (fun r => r.sl_price)) =
      some 20340 := by
  exact ⟨by decide, by decide, by decide, by decide⟩

/-- Every row of the frame built over the constant default column has
ATR 100. -/
theorem atr_default_of_mem_zipWith (ks : List Kline) :
    ∀ (as : List (Option ℚ)) r,
      r ∈ List.zipWith mkAtrRow ks (as.map (fun _ => some (100:ℚ))) →
      r.atr = some 100 := by
  induction ks with
  | nil => simp
  | cons k ks ih =>
      intro as r hr
      cases as with
      | nil => simp at hr
      | cons a as =>
          simp only [List.map_cons, List.zipWith_cons_cons,
            List.mem_cons] at hr
          rcases hr with h | h
          · rw [h]
            rfl
          · exact ih as r h

/-- C1 amended: a signal that passes the concurrency and duplicate gates
is rejected when the fetched kline list is empty (the handler's
empty/all-NaN guard), but when candles are present and the computed ATR
column is entirely NaN, `_fetch_data_for_atr` substitutes the constant
default 100.0 for every row, so the handler's all-NaN rejection cannot
fire and sizing proceeds with the fabricated value. -/
theorem rm_all_nan_atr_amended (env : RiskEnv) (sig : TradeSignal)
    (h1 : env.openPositionKeys.length < env.maxConcurrentTrades)
    (h2 : env.openPositionKeys.contains sig.symbol = false) :
    (env.klines = [] → onTradeSignal env sig =
      (none, [RMCall.getPositions, RMCall.fetchKlines sig.symbol])) ∧
    (env.klines ≠ [] → env.atrRaw.all (fun x => x = none) = true →
      ∀ r ∈ fetchDataForATR env.klines env.atrRaw, r.atr = some 100) := by
  constructor
  · intro hk
    unfold onTradeSignal
    rw [if_neg (not_le.mpr h1), if_neg (by simpa using h2)]
    have hdf : fetchDataForATR env.klines env.atrRaw = [] := by
      unfold fetchDataForATR
      rw [if_pos hk]
    rw [hdf]
    unfold onTradeSignalWithDf
    simp
  · intro hk hnan r hr
    unfold fetchDataForATR at hr
    rw [if_neg hk, if_pos hnan] at hr
    exact atr_default_of_mem_zipWith env.klines env.atrRaw r hr

theorem rm_all_nan_atr_amended_witness :
    (envC1.klines = [] → onTradeSignal envC1 sigBuyBTC =
      (none, [RMCall.getPositions, RMCall.fetchKlines sigBuyBTC.symbol])) ∧
    (envC1.klines ≠ [] →
      envC1.atrRaw.all (fun x => x = none) = true →
      ∀ r ∈ fetchDataForATR envC1.klines envC1.atrRaw, r.atr = some 100) :=
  rm_all_nan_atr_amended envC1 sigBuyBTC (by decide) (by decide)

/-! ## Claim C3 -/

attribute [local semireducible] Rat.mul Rat.add Rat.sub Rat.inv Rat.ofScientific in
/-- C3 counterexample: an exit fill at 110 on a long of 2 units entered
at 100.  The appended row has pnl = 20 and pnl_percent = 10 (the ratio
times 100), while the claim's formula pnl ÷ (entry × qty) gives 1/10. -/
theorem monitor_exit_pnl_percent_counterexample :
    (processOrderFill stC3 {} msgC3).1.tradeLog =
      [{ symbol := "XUSDT", strategy := "S", side := "BUY", quantity := 2,
          entry_price := 100, exit_price := 110, pnl := 20,
          pnl_percent := 10, timestamp_entry := 0, timestamp_exit := 7 }] ∧
    lookupK (processOrderFill stC3 {} msgC3).1.positions "XUSDT" = none ∧
    ¬((10 : ℚ) = 20 / (100 * 2)) := by
  exact ⟨by decide, by decide, by decide⟩

/-- C3 amended: an exit fill matched to a pending order, for a symbol
with an open position, deletes the position (absent afterwards) and
appends exactly one trade-log row whose pnl is (exit − entry) × qty for a
long and the mirror for a short, and whose pnl_percent is the ratio
pnl ÷ (entry × qty) expressed as a percentage (× 100). -/
theorem monitor_exit_fill_settlement (st : MonitorState) (orc : FillOracle)
    (msg : FillMsg) (req : OrderRequest) (pos : Position)
    (hid : msg.client_order_id ≠ "") (hsym : msg.symbol ≠ "")
    (hget : orc.getCacheOk = true)
    (hreq : lookupK st.pendingOrders msg.client_order_id = some req)
    (hexit : classifiesAsEntry req msg.side = false)
    (hgp : orc.getPosOk = true)
    (hpos : lookupK st.positions msg.symbol = some pos)
    (hdp : orc.delPosOk = true) (hdb : orc.dbOk = true) :
    ∃ t : TradeLog,
      (processOrderFill st orc msg).1.tradeLog = st.tradeLog ++ [t] ∧
      lookupK (processOrderFill st orc msg).1.positions msg.symbol = none ∧
      t.pnl = (if pos.side = OrderSide.BUY then
          (msg.fill_price - pos.entry_price) * pos.quantity
        else (pos.entry_price - msg.fill_price) * pos.quantity) ∧
      t.pnl_percent = t.pnl / (pos.entry_price * pos.quantity) * 100 := by
  have hpct : ∀ p : ℚ,
      (if pos.entry_price * pos.quantity ≠ 0 then
          p / (pos.entry_price * pos.quantity) * 100 else 0) =
        p / (pos.entry_price * pos.quantity) * 100 := by
    intro p
    by_cases hev : pos.entry_price * pos.quantity = 0
    · rw [if_neg (by simp [hev]), hev, div_zero, zero_mul]
    · rw [if_pos hev]
  refine ⟨exitTradeLog pos msg, ?_, ?_, rfl, ?_⟩
  · by_cases horc : orc.delCacheOk = true <;>
      by_cases hpc : orc.publishClosedOk = true <;>
        simp [processOrderFill, hid, hsym, hget, hreq, hexit, hgp, hpos,
          hdp, hdb, horc, hpc]
  · by_cases horc : orc.delCacheOk = true <;>
      by_cases hpc : orc.publishClosedOk = true <;>
        simp [processOrderFill, hid, hsym, hget, hreq, hexit, hgp, hpos,
          hdp, hdb, horc, hpc, lookupK_eraseK_self]
  · simpa [exitTradeLog] using hpct _

attribute [local semireducible] Rat.mul Rat.add Rat.sub Rat.inv Rat.ofScientific in
theorem monitor_exit_fill_settlement_witness :
    ∃ t : TradeLog,
      (processOrderFill stC3 {} msgC3).1.tradeLog = stC3.tradeLog ++ [t] ∧
      lookupK (processOrderFill stC3 {} msgC3).1.positions msgC3.symbol =
        none ∧
      t.pnl = (if posLongX.side = OrderSide.BUY then
          (msgC3.fill_price - posLongX.entry_price) * posLongX.quantity
        else (posLongX.entry_price - msgC3.fill_price) * posLongX.quantity) ∧
      t.pnl_percent =
        t.pnl / (posLongX.entry_price * posLongX.quantity) * 100 :=
  monitor_exit_fill_settlement stC3 {} msgC3 exitReqX posLongX
    (by decide) (by decide) rfl (by decide) (by decide) rfl (by decide)
    rfl rfl

/-! ## Claim C8 -/

attribute [local semireducible] Rat.mul Rat.add Rat.sub Rat.inv Rat.ofScientific in
/-- C8 counterexample: on an entry fill whose position-store write
succeeds but whose `position_opened` publish raises, the shared `except`
removes the symbol from the watch-set even though the stored position
exists — refuting "if the store write succeeds the symbol remains in the
watch-set regardless of later failures in the same handler". -/
theorem monitor_entry_publish_failure_counterexample :
    lookupK (processOrderFill stC8 orcC8pf msgC8).1.positions "XUSDT" =
      some posC8new ∧
    "XUSDT" ∉ (processOrderFill stC8 orcC8pf msgC8).1.watched := by
  exact ⟨by decide, by decide⟩

/-- C8 amended: on an entry fill, if the whole entry block (store write,
watch-add, publish) succeeds the position is stored, the symbol is in the
watch-set and the position-opened event is published; the symbol ends up
outside the watch-set both when the store write fails (position not
stored) and when the subsequent publish fails (position stored). -/
theorem monitor_entry_fill_watchset (st : MonitorState) (orc : FillOracle)
    (msg : FillMsg) (req : OrderRequest)
    (hid : msg.client_order_id ≠ "") (hsym : msg.symbol ≠ "")
    (hget : orc.getCacheOk = true)
    (hreq : lookupK st.pendingOrders msg.client_order_id = some req)
    (hcl : classifiesAsEntry req msg.side = true) :
    (orc.entry = EntryOutcome.ok →
      msg.symbol ∈ (processOrderFill st orc msg).1.watched ∧
      (∃ p, lookupK (processOrderFill st orc msg).1.positions msg.symbol =
          some p ∧
        MonAction.publishOpened p ∈ (processOrderFill st orc msg).2)) ∧
    (orc.entry = EntryOutcome.setStateFails →
      msg.symbol ∉ (processOrderFill st orc msg).1.watched ∧
      (processOrderFill st orc msg).1.positions = st.positions) ∧
    (orc.entry = EntryOutcome.publishFails →
      msg.symbol ∉ (processOrderFill st orc msg).1.watched ∧
      ∃ p, lookupK (processOrderFill st orc msg).1.positions msg.symbol =
        some p) := by
  refine ⟨fun hoc => ?_, fun hoc => ?_, fun hoc => ?_⟩ <;>
    by_cases horc : orc.delCacheOk = true <;>
      simp [processOrderFill, hid, hsym, hget, hreq, hcl, hoc, horc,
        lookupK_insertK_self, Finset.not_mem_erase]

theorem monitor_entry_fill_watchset_witness :
    (FillOracle.entry {} = EntryOutcome.ok →
      msgC8.symbol ∈ (processOrderFill stC8 {} msgC8).1.watched ∧
      (∃ p, lookupK (processOrderFill stC8 {} msgC8).1.positions
          msgC8.symbol = some p ∧
        MonAction.publishOpened p ∈ (processOrderFill stC8 {} msgC8).2)) ∧
    (FillOracle.entry {} = EntryOutcome.setStateFails →
      msgC8.symbol ∉ (processOrderFill stC8 {} msgC8).1.watched ∧
      (processOrderFill stC8 {} msgC8).1.positions = stC8.positions) ∧
    (FillOracle.entry {} = EntryOutcome.publishFails →
      msgC8.symbol ∉ (processOrderFill stC8 {} msgC8).1.watched ∧
      ∃ p, lookupK (processOrderFill stC8 {} msgC8).1.positions
        msgC8.symbol = some p) :=
  monitor_entry_fill_watchset stC8 {} msgC8 entryReqX
    (by decide) (by decide) rfl (by decide) (by decide)

/-! ## Claim C5 -/

attribute [local semireducible] Rat.mul Rat.add Rat.sub Rat.inv Rat.ofScientific in
/-- C5 counterexample: a watched long position whose stored take-profit
price is 0.0.  At tick price 5 the claim's take-profit condition
(price ≥ target) holds, yet the handler — Python truthiness of
`pos.tp_price` — does not trigger: the state is unchanged (symbol still
watched) and only the PNL update is published, no exit request. -/
theorem monitor_tp_zero_counterexample :
    lookupK stC5.positions "XUSDT" = some posTpZero ∧
    posTpZero.side = OrderSide.BUY ∧
    posTpZero.tp_price = some 0 ∧
    ((0 : ℚ) ≤ 5) ∧
    ¬((5 : ℚ) ≤ posTpZero.sl_price) ∧
    "XUSDT" ∈ stC5.watched ∧
    checkPositionSlTp stC5 {} 0 "XUSDT" 5 =
      (stC5, [MonAction.publishPnl "XUSDT" 4 5]) := by
  exact ⟨by decide, by decide, by decide, by decide, by decide, by decide,
    by decide⟩

/-- C5 amended: on a tick for a watched symbol whose stored position
triggers (long: price ≤ stop, or a nonzero target with price ≥ target;
short mirrored — a zero/absent stored target never triggers), the handler
removes the symbol from the watch-set and then publishes an exit request
with the side reversed, the full position quantity, and no stop/target
fields; the trace shows the removal strictly before the publish. -/
theorem monitor_sl_tp_trigger_exit (st : MonitorState) (orc : TickOracle)
    (nowMs : ℕ) (symbol : String) (price : ℚ) (pos : Position)
    (hok : orc.getPosOk = true) (hpub : orc.exitPublishOk = true)
    (hpos : lookupK st.positions symbol = some pos)
    (hw : symbol ∈ st.watched)
    (htrig :
      (pos.side = OrderSide.BUY ∧ (price ≤ pos.sl_price ∨
        (∃ tp, pos.tp_price = some tp ∧ tp ≠ 0 ∧ tp ≤ price))) ∨
      (pos.side = OrderSide.SELL ∧ (pos.sl_price ≤ price ∨
        (∃ tp, pos.tp_price = some tp ∧ tp ≠ 0 ∧ price ≤ tp)))) :
    ∃ req pnl,
      checkPositionSlTp st orc nowMs symbol price =
        ({ st with watched := st.watched.erase symbol },
          [MonAction.publishPnl symbol pnl price,
            MonAction.watchRemove symbol, MonAction.publishExit req]) ∧
      req.side = (if pos.side = OrderSide.BUY then OrderSide.SELL
        else OrderSide.BUY) ∧
      req.quantity = pos.quantity ∧
      req.sl_price = none ∧ req.tp_price = none ∧
      symbol ∉ (checkPositionSlTp st orc nowMs symbol price).1.watched := by
  have hcond :
      ((if pos.side = OrderSide.BUY then
          (decide (price ≤ pos.sl_price))
        else (decide (pos.sl_price ≤ price))) ||
        (match pos.tp_price with
          | none => false
          | some tp => tp ≠ 0 &&
              (if pos.side = OrderSide.BUY then decide (tp ≤ price)
                else decide (price ≤ tp)))) = true := by
    rcases htrig with ⟨hside, h | ⟨tp, htp, htp0, hle⟩⟩ |
      ⟨hside, h | ⟨tp, htp, htp0, hle⟩⟩
    · simp [hside, h]
    · simp [hside, htp, htp0, hle]
    · simp [hside, h]
    · simp [hside, htp, htp0, hle]
  refine ⟨exitRequest pos symbol nowMs
      (if pos.side = OrderSide.BUY then decide (price ≤ pos.sl_price)
        else decide (pos.sl_price ≤ price)),
    (if pos.side = OrderSide.BUY then
        (price - pos.entry_price) * pos.quantity
      else (pos.entry_price - price) * pos.quantity),
    ?_, rfl, rfl, rfl, rfl, ?_⟩
  · unfold checkPositionSlTp
    rw [hok]
    simp only [Bool.true_eq_false, if_false]
    rw [hpos]
    simp only [hcond, if_pos hw, hpub, if_true]
    rfl
  · unfold checkPositionSlTp
    rw [hok]
    simp only [Bool.true_eq_false, if_false]
    rw [hpos]
    simp only [hcond, if_pos hw, hpub, if_true]
    exact Finset.not_mem_erase _ _

attribute [local semireducible] Rat.mul Rat.add Rat.sub Rat.inv Rat.ofScientific in
theorem monitor_sl_tp_trigger_exit_witness :
    ∃ req pnl,
      checkPositionSlTp stC5w {} 99 "XUSDT" 89 =
        ({ stC5w with watched := stC5w.watched.erase "XUSDT" },
          [MonAction.publishPnl "XUSDT" pnl 89,
            MonAction.watchRemove "XUSDT", MonAction.publishExit req]) ∧
      req.side = (if posLongX.side = OrderSide.BUY then OrderSide.SELL
        else OrderSide.BUY) ∧
      req.quantity = posLongX.quantity ∧
      req.sl_price = none ∧ req.tp_price = none ∧
      "XUSDT" ∉ (checkPositionSlTp stC5w {} 99 "XUSDT" 89).1.watched :=
  monitor_sl_tp_trigger_exit stC5w {} 99 "XUSDT" 89 posLongX rfl rfl
    (by decide) (by decide)
    (Or.inl ⟨by decide, Or.inl (by decide)⟩)

/-! ## Claim C7 -/

attribute [local semireducible] Rat.mul Rat.add Rat.sub Rat.inv Rat.ofScientific in
/-- C7 counterexample: a BUY signal is accepted (order published) with
current price 99.6, genuine ATR 0.01 and price tick 1: half-up tick
rounding lifts the stop 99.585 to 100, which is above the current price —
refuting stop_loss_price < current_price for accepted BUYs. -/
theorem rm_accepted_buy_stop_above_price_counterexample :
    (onTradeSignal envC7 sigBuyBTC).1.isSome = true ∧
    ((onTradeSignal envC7 sigBuyBTC).1.map (fun r => r.side)) =
      some OrderSide.BUY ∧
    ((onTradeSignal envC7 sigBuyBTC).1.bind (fun r => r.sl_price)) =
      some 100 ∧
    lastCloseOf envC7 = some (498/5) ∧
    ¬((100 : ℚ) < 498/5) := by
  exact ⟨by decide, by decide, by decide, by decide, by decide⟩

/-- The tick-rounded price stays within half a tick of the raw price
(`t = 0` covering the no-tick and zero-tick no-op cases). -/
theorem adjust_price_within_half_tick (f : SymbolFilters) (sym : String)
    (x t : ℚ)
    (ht : f.tickOf sym = some t ∨ (f.tickOf sym = none ∧ t = 0))
    (ht0 : 0 ≤ t) :
    x - t/2 ≤ adjust_price_to_tick f sym x ∧
      adjust_price_to_tick f sym x ≤ x + t/2 := by
  rcases ht with ht | ⟨ht, rfl⟩
  · by_cases h0 : t = 0
    · subst h0
      have hx : adjust_price_to_tick f sym x = x := by
        unfold adjust_price_to_tick
        rw [ht]
        simp
      rw [hx]
      constructor <;> linarith
    · exact adjust_price_to_tick_bounds f sym x t ht
        (lt_of_le_of_ne ht0 (Ne.symm h0))
  · have hx : adjust_price_to_tick f sym x = x := by
      unfold adjust_price_to_tick
      rw [ht]
    rw [hx]
    constructor <;> linarith

/-- C7 amended: for every accepted signal, provided the take-profit
distance 3 × ATR exceeds the symbol's effective price tick (equivalently
the stop distance 1.5 × ATR exceeds half a tick; `t = 0` when no tick is
configured), the published rounded prices bracket the current price:
sl < price < tp for a BUY and tp < price < sl for a SELL.  When
3 × ATR ≤ tick the rounding can push the stop across the price (see the
counterexample). -/
theorem rm_accepted_order_price_bracketing (env : RiskEnv)
    (sig : TradeSignal) (req : OrderRequest) (cp a t : ℚ)
    (hcp : lastCloseOf env = some cp) (hatr : atrOf env = some a)
    (ht : env.filters.tickOf sig.symbol = some t ∨
      (env.filters.tickOf sig.symbol = none ∧ t = 0))
    (ht0 : 0 ≤ t) (hta : t < 3 * a)
    (hacc : (onTradeSignal env sig).1 = some req) :
    (sig.side = OrderSide.BUY →
      ∃ sl tp, req.sl_price = some sl ∧ req.tp_price = some tp ∧
        sl < cp ∧ cp < tp) ∧
    (sig.side = OrderSide.SELL →
      ∃ sl tp, req.sl_price = some sl ∧ req.tp_price = some tp ∧
        tp < cp ∧ cp < sl) := by
  unfold onTradeSignal at hacc
  split at hacc
  · simp at hacc
  · split at hacc
    · simp at hacc
    · dsimp only at hacc
      unfold onTradeSignalWithDf at hacc
      split at hacc
      · simp at hacc
      · split at hacc
        next heq => simp at hacc
        next lastRow heq =>
          unfold lastCloseOf at hcp
          unfold atrOf at hatr
          rw [heq] at hcp hatr
          simp only [Option.map_some', Option.some_bind,
            Option.some.injEq] at hcp
          simp only [Option.some_bind] at hatr
          split at hacc
          next hnone => rw [hnone] at hatr; simp at hatr
          next atr_value heq2 =>
            rw [heq2] at hatr
            have haa : atr_value = a := Option.some.inj hatr
            subst haa
            subst hcp
            have hmsl : slAtrMultiplier = 3/2 := rfl
            have hmtp : tpAtrMultiplier = 3 := rfl
            rw [hmsl, hmtp] at hacc
            cases hside : sig.side with
            | BUY =>
                simp only [hside] at hacc ⊢
                refine And.intro (fun _ => ?_)
                  (fun hs => absurd hs (by simp))
                try (simp only [reduceIte] at hacc)
                have hsl := adjust_price_within_half_tick env.filters
                  sig.symbol (lastRow.close - atr_value * (3/2)) t ht ht0
                have htp := adjust_price_within_half_tick env.filters
                  sig.symbol (lastRow.close + atr_value * 3) t ht ht0
                repeat' split at hacc
                all_goals try (exfalso; simp_all; done)
                dsimp only at hacc
                injection hacc with h
                subst h
                refine ⟨_, _, rfl, rfl, ?_, ?_⟩
                · have h1 := hsl.2
                  linarith
                · have h1 := htp.1
                  linarith
            | SELL =>
                simp only [hside] at hacc ⊢
                refine And.intro (fun hs => absurd hs (by simp))
                  (fun _ => ?_)
                try (simp only [reduceIte] at hacc)
                have hsl := adjust_price_within_half_tick env.filters
                  sig.symbol (lastRow.close + atr_value * (3/2)) t ht ht0
                have htp := adjust_price_within_half_tick env.filters
                  sig.symbol (lastRow.close - atr_value * 3) t ht ht0
                repeat' split at hacc
                all_goals try (exfalso; simp_all; done)
                dsimp only at hacc
                injection hacc with h
                subst h
                refine ⟨_, _, rfl, rfl, ?_, ?_⟩
                · have h1 := htp.2
                  linarith
                · have h1 := hsl.1
                  linarith

attribute [local semireducible] Rat.mul Rat.add Rat.sub Rat.inv Rat.ofScientific in
theorem rm_accepted_order_price_bracketing_witness :
    (sigBuyBTC.side = OrderSide.BUY →
      ∃ sl tp, reqC1pub.sl_price = some sl ∧ reqC1pub.tp_price = some tp ∧
        sl < 20490 ∧ (20490 : ℚ) < tp) ∧
    (sigBuyBTC.side = OrderSide.SELL →
      ∃ sl tp, reqC1pub.sl_price = some sl ∧ reqC1pub.tp_price = some tp ∧
        tp < 20490 ∧ (20490 : ℚ) < sl) :=
  rm_accepted_order_price_bracketing envC1 sigBuyBTC reqC1pub 20490 100
    (1/100) (by decide) (by decide) (Or.inl (by decide)) (by decide)
    (by decide) (by decide)

end SynapseTrader
